import Mathlib

/-!
Shallow embedding of the Fyrox editor's collection add/remove command pair
(`define_vec_add_remove_commands` in src/editor/src/scene/mod.rs) and the
rectangle property-change handler
(src/editor/src/inspector/handlers/node/rectangle.rs).

Conventions of the embedding:
* A `Vec<T>` is a `List α`; `Vec::push`, `Vec::pop`, `Vec::remove(i)` and
  `Vec::insert(i, v)` are modelled below, with every Rust panic (out-of-range
  index, `Option::unwrap` of `None`, pop of an empty vector) rendered as an
  `Option`-valued result `none`.
* The scene context is an aggregate holding a handle-addressed pool of
  collections (the `$get_container` block of the macro reaches the collection
  at `self.handle`) together with the other observable editor state
  (selection, clipboard), so that frame/locality properties can be stated.
* `std::mem::take(&mut self.value)` is `Inhabited.default` substitution, as
  `mem::take` replaces the value with `Default::default()`.
-/

namespace Fyrox

/-- Model of `Vec::pop`: returns `none` on the empty vector (where the Rust
code's `.unwrap()` would panic), otherwise the vector without its last
element together with that last element. -/
def vecPop (l : List α) : Option (List α × α) :=
  match l.getLast? with
  | none => none
  | some v => some (l.dropLast, v)

/-- Model of `Vec::remove(i)`: panics (`none`) when `i ≥ len`, otherwise
removes and returns the element at index `i`, shifting later elements left. -/
def vecRemove (l : List α) (i : Nat) : Option (List α × α) :=
  if h : i < l.length then some (l.take i ++ l.drop (i + 1), l.get ⟨i, h⟩)
  else none

/-- Model of `Vec::insert(i, v)`: panics (`none`) when `i > len`, otherwise
inserts `v` at index `i`, shifting later elements right. -/
def vecInsert (l : List α) (i : Nat) (v : α) : Option (List α) :=
  if i ≤ l.length then some (l.take i ++ v :: l.drop i)
  else none

/-- The mutable scene context the commands operate on: a handle-addressed
pool of collections (the target of the macro's `$get_container` block) plus
the other observable editor state (selection, clipboard). -/
structure SceneContext (α : Type) where
  containers : List (List α)
  selection : Nat
  clipboard : Nat
deriving DecidableEq

/-- The collection reached via handle `h` (the macro's `$get_container`). -/
def getContainer (ctx : SceneContext α) (h : Nat) : List α :=
  ctx.containers.getD h []

/-- Writing back the collection reached via handle `h`. -/
def setContainer (ctx : SceneContext α) (h : Nat) (l : List α) : SceneContext α :=
  { ctx with containers := ctx.containers.set h l }

/-- The `$add_name` struct generated by `define_vec_add_remove_commands`:
`pub handle: Handle<M>, pub value: T`. -/
structure AddCommand (α : Type) where
  handle : Nat
  value : α
deriving DecidableEq

/-- `$add_name::name`: `stringify!($add_name).to_owned()` — the stringified
type name fixed at macro-expansion time; the `&SceneContext` argument is
ignored (and, being a shared borrow in Rust, cannot be mutated). -/
def AddCommand.name (tyName : String) (_self : AddCommand α) (_ctx : SceneContext α) : String :=
  tyName

/-- `$add_name::execute`: `$get_container.push(std::mem::take(&mut self.value))`.
Pushes the held value onto the target collection and leaves the command's
`value` field holding the element type's default. Never panics. -/
def AddCommand.execute [Inhabited α] (self : AddCommand α) (ctx : SceneContext α) :
    AddCommand α × SceneContext α :=
  ({ self with value := default },
    setContainer ctx self.handle (getContainer ctx self.handle ++ [self.value]))

/-- `$add_name::revert`: `self.value = $get_container.pop().unwrap()`.
Pops the last element of the target collection back into `value`; panics
(`none`) when the collection is empty. -/
def AddCommand.revert (self : AddCommand α) (ctx : SceneContext α) :
    Option (AddCommand α × SceneContext α) :=
  match vecPop (getContainer ctx self.handle) with
  | none => none
  | some (l, v) => some ({ self with value := v }, setContainer ctx self.handle l)

/-- The `$remove_name` struct generated by `define_vec_add_remove_commands`:
`pub handle: Handle<M>, pub index: usize, pub value: Option<T>`. -/
structure RemoveCommand (α : Type) where
  handle : Nat
  index : Nat
  value : Option α
deriving DecidableEq

/-- `$remove_name::name`: `stringify!($remove_name).to_owned()` — a fixed
string, independent of the (immutably borrowed) context. -/
def RemoveCommand.name (tyName : String) (_self : RemoveCommand α) (_ctx : SceneContext α) : String :=
  tyName

/-- `$remove_name::execute`: `self.value = Some($get_container.remove(self.index))`.
Removes the element at `index` (panicking, `none`, when out of range) and
stores it in the command's `value` slot. -/
def RemoveCommand.execute (self : RemoveCommand α) (ctx : SceneContext α) :
    Option (RemoveCommand α × SceneContext α) :=
  match vecRemove (getContainer ctx self.handle) self.index with
  | none => none
  | some (l, v) => some ({ self with value := some v }, setContainer ctx self.handle l)

/-- `$remove_name::revert`:
`$get_container.insert(self.index, self.value.take().unwrap())`.
Takes the stored value (panicking, `none`, when the slot is empty, before any
insertion happens) and reinserts it at `index` (panicking when `index > len`). -/
def RemoveCommand.revert (self : RemoveCommand α) (ctx : SceneContext α) :
    Option (RemoveCommand α × SceneContext α) :=
  match self.value with
  | none => none
  | some v =>
    match vecInsert (getContainer ctx self.handle) self.index v with
    | none => none
    | some l => some ({ self with value := none }, setContainer ctx self.handle l)

/-- `FieldKind` of a property-changed event (fyrox-gui): an object (leaf)
value, a nested inspectable, or a collection change. Payloads are abstracted
to `Nat` tokens. -/
inductive FieldKind where
  | object (value : Nat)
  | inspectable (inner : Nat)
  | collection (payload : Nat)
deriving DecidableEq

/-- A property-changed event: field path/name plus the payload kind. -/
structure PropertyChanged where
  name : String
  value : FieldKind
deriving DecidableEq

/-- A scene node, abstracted to the one capability the handler queries:
`node.is_rectangle()`. -/
structure Node where
  rectangleFlag : Bool
deriving DecidableEq

/-- `Node::is_rectangle`. -/
def Node.is_rectangle (n : Node) : Bool :=
  n.rectangleFlag

/-- The commands the rectangle handler can produce. -/
inductive SceneCommand where
  | setRectangleTexture (handle : Nat) (value : Nat)
  | setRectangleColor (handle : Nat) (value : Nat)
  | base (payload : Nat)
deriving DecidableEq

/-- `Rectangle::TEXTURE` field-name constant (fyrox). -/
def Rectangle.TEXTURE : String := "texture"

/-- `Rectangle::COLOR` field-name constant (fyrox). -/
def Rectangle.COLOR : String := "color"

/-- `Rectangle::BASE` field-name constant (fyrox). -/
def Rectangle.BASE : String := "base"

/-- Modelled from the spec: the repository's `make_command!` macro (its
definition is not under src/; the spec says factories map a matched
(entity-type, field-name) pair to a concrete Command constructor). It wraps
the constructor applied to the handle and the event payload into `some`. -/
def make_command (ctor : Nat → Nat → SceneCommand) (handle : Nat) (value : Nat) :
    Option SceneCommand :=
  some (ctor handle value)

/-- `handle_rectangle_property_changed`
(src/editor/src/inspector/handlers/node/rectangle.rs). The base-property
handler lives in another file and is passed as a parameter `handleBase`. -/
def handle_rectangle_property_changed
    (handleBase : Nat → Nat → Node → Option SceneCommand)
    (args : PropertyChanged) (handle : Nat) (node : Node) : Option SceneCommand :=
  if node.is_rectangle then
    match args.value with
    | FieldKind.object v =>
      if args.name = Rectangle.TEXTURE then
        make_command SceneCommand.setRectangleTexture handle v
      else if args.name = Rectangle.COLOR then
        make_command SceneCommand.setRectangleColor handle v
      else none
    | FieldKind.inspectable inner =>
      if args.name = Rectangle.BASE then handleBase inner handle node
      else none
    | FieldKind.collection _ => none
  else none

/-- Whether a (field kind, field name) pair matches one of the known
rectangle fields handled by `handle_rectangle_property_changed`:
`TEXTURE`/`COLOR` for object values, `BASE` for inspectable values. -/
def matchesKnownRectangleField (args : PropertyChanged) : Bool :=
  match args.value with
  | FieldKind.object _ =>
    if args.name = Rectangle.TEXTURE then true
    else if args.name = Rectangle.COLOR then true
    else false
  | FieldKind.inspectable _ =>
    if args.name = Rectangle.BASE then true else false
  | FieldKind.collection _ => false

/-- `ctx'` agrees with `ctx` everywhere except possibly at the collection
with handle `h`: the selection, the clipboard and every other collection are
unchanged (`ctx'.containers` is `ctx.containers` with at most position `h`
replaced). -/
def agreesOutside (ctx ctx' : SceneContext α) (h : Nat) : Prop :=
  ctx'.selection = ctx.selection ∧ ctx'.clipboard = ctx.clipboard ∧
  ctx'.containers = ctx.containers.set h (ctx'.containers.getD h [])

/- ### Helper lemmas -/

theorem list_set_getElem_self (l : List β) (h : Nat) (hh : h < l.length) :
    l.set h l[h] = l := by
  apply List.ext_getElem?
  intro j
  rw [List.getElem?_set]
  split
  · subst_vars
    simp [List.getElem?_eq_getElem hh]
  · rfl

theorem getContainer_setContainer_self (ctx : SceneContext α) (h : Nat) (x : List α)
    (hh : h < ctx.containers.length) : getContainer (setContainer ctx h x) h = x := by
  unfold getContainer setContainer
  simp only [List.getD_eq_getElem?_getD]
  rw [List.getElem?_set_eq_of_lt x hh]
  rfl

theorem getContainer_setContainer_ne (ctx : SceneContext α) (h j : Nat) (x : List α)
    (hne : j ≠ h) : getContainer (setContainer ctx h x) j = getContainer ctx j := by
  unfold getContainer setContainer
  simp only [List.getD_eq_getElem?_getD]
  rw [List.getElem?_set_ne (Ne.symm hne)]

theorem setContainer_getContainer_self (ctx : SceneContext α) (h : Nat)
    (hh : h < ctx.containers.length) : setContainer ctx h (getContainer ctx h) = ctx := by
  unfold getContainer setContainer
  rw [List.getD_eq_getElem?_getD, List.getElem?_eq_getElem hh, Option.getD_some,
    list_set_getElem_self ctx.containers h hh]

theorem getContainer_eq_nil_of_le (ctx : SceneContext α) (h : Nat)
    (hh : ctx.containers.length ≤ h) : getContainer ctx h = [] := by
  unfold getContainer
  rw [List.getD_eq_getElem?_getD, List.getElem?_eq_none hh]
  rfl

theorem handle_lt_of_index_lt (ctx : SceneContext α) (h i : Nat)
    (hi : i < (getContainer ctx h).length) : h < ctx.containers.length := by
  by_contra hcon
  rw [getContainer_eq_nil_of_le ctx h (Nat.le_of_not_lt hcon)] at hi
  simp at hi

theorem length_setContainer (ctx : SceneContext α) (h : Nat) (l : List α) :
    (setContainer ctx h l).containers.length = ctx.containers.length := by
  simp [setContainer]

theorem setContainer_setContainer (ctx : SceneContext α) (h : Nat) (l₁ l₂ : List α) :
    setContainer (setContainer ctx h l₁) h l₂ = setContainer ctx h l₂ := by
  simp [setContainer, List.set_set]

theorem vecRemove_eq_some (l : List α) (i : Nat) (h : i < l.length) :
    vecRemove l i = some (l.take i ++ l.drop (i + 1), l.get ⟨i, h⟩) := by
  unfold vecRemove
  rw [dif_pos h]

theorem vecInsert_take_drop (l : List α) (i : Nat) (h : i < l.length) :
    vecInsert (l.take i ++ l.drop (i + 1)) i (l.get ⟨i, h⟩) = some l := by
  have hti : (l.take i).length = i := by
    simp [List.length_take, Nat.min_eq_left (Nat.le_of_lt h)]
  have hlen : i ≤ (l.take i ++ l.drop (i + 1)).length := by
    simp only [List.length_append, hti]
    omega
  unfold vecInsert
  rw [if_pos hlen]
  congr 1
  rw [List.take_left' hti, List.drop_left' hti, List.get_eq_getElem,
    ← List.drop_eq_getElem_cons h, List.take_append_drop]

theorem vecPop_concat (l : List α) (v : α) : vecPop (l ++ [v]) = some (l, v) := by
  unfold vecPop
  rw [List.getLast?_concat]
  simp [List.dropLast_concat]

theorem agreesOutside_setContainer (ctx : SceneContext α) (h : Nat) (l : List α) :
    agreesOutside ctx (setContainer ctx h l) h := by
  refine ⟨rfl, rfl, ?_⟩
  show ctx.containers.set h l = ctx.containers.set h ((ctx.containers.set h l).getD h [])
  by_cases hh : h < ctx.containers.length
  · have : (ctx.containers.set h l).getD h [] = l := by
      rw [List.getD_eq_getElem?_getD, List.getElem?_set_eq_of_lt l hh]
      rfl
    rw [this]
  · have hle := Nat.le_of_not_lt hh
    simp [List.set_eq_of_length_le hle]

theorem addRevert_shape (c : AddCommand α) (ctx : SceneContext α)
    (c' : AddCommand α) (ctx' : SceneContext α) (h : c.revert ctx = some (c', ctx')) :
    ∃ l, ctx' = setContainer ctx c.handle l := by
  unfold AddCommand.revert at h
  cases hp : vecPop (getContainer ctx c.handle) with
  | none => rw [hp] at h; cases h
  | some p =>
    obtain ⟨l, v⟩ := p
    rw [hp] at h
    simp only [Option.some.injEq, Prod.mk.injEq] at h
    exact ⟨l, h.2.symm⟩

theorem removeExecute_shape (c : RemoveCommand α) (ctx : SceneContext α)
    (c' : RemoveCommand α) (ctx' : SceneContext α) (h : c.execute ctx = some (c', ctx')) :
    ∃ l, ctx' = setContainer ctx c.handle l := by
  unfold RemoveCommand.execute at h
  cases hp : vecRemove (getContainer ctx c.handle) c.index with
  | none => rw [hp] at h; cases h
  | some p =>
    obtain ⟨l, v⟩ := p
    rw [hp] at h
    simp only [Option.some.injEq, Prod.mk.injEq] at h
    exact ⟨l, h.2.symm⟩

theorem removeRevert_shape (c : RemoveCommand α) (ctx : SceneContext α)
    (c' : RemoveCommand α) (ctx' : SceneContext α) (h : c.revert ctx = some (c', ctx')) :
    ∃ l, ctx' = setContainer ctx c.handle l := by
  unfold RemoveCommand.revert at h
  cases hv : c.value with
  | none => rw [hv] at h; cases h
  | some v =>
    rw [hv] at h
    dsimp only at h
    cases hins : vecInsert (getContainer ctx c.handle) c.index v with
    | none => rw [hins] at h; cases h
    | some l =>
      rw [hins] at h
      simp only [Option.some.injEq, Prod.mk.injEq] at h
      exact ⟨l, h.2.symm⟩

/- ### Claim theorems -/

/-- C1: for a remove command whose `index` is in range for the collection
reached via its `handle`, `execute` succeeds and removes exactly the element
at `index` (the collection becomes `take index ++ drop (index+1)`, later
elements shifted left), storing that element in the command's `value` slot;
the immediately following `revert` succeeds, reinserts that same element at
`index`, and restores the whole scene context (in particular the
collection, element for element and in order) to its pre-execute state. -/
theorem remove_execute_then_revert_restores (c : RemoveCommand α) (ctx : SceneContext α)
    (h : c.index < (getContainer ctx c.handle).length) :
    c.execute ctx = some
      ({ c with value := some ((getContainer ctx c.handle).get ⟨c.index, h⟩) },
        setContainer ctx c.handle
          ((getContainer ctx c.handle).take c.index ++
            (getContainer ctx c.handle).drop (c.index + 1))) ∧
    RemoveCommand.revert
      { c with value := some ((getContainer ctx c.handle).get ⟨c.index, h⟩) }
      (setContainer ctx c.handle
        ((getContainer ctx c.handle).take c.index ++
          (getContainer ctx c.handle).drop (c.index + 1)))
      = some ({ c with value := none }, ctx) := by
  have hh : c.handle < ctx.containers.length := handle_lt_of_index_lt ctx c.handle c.index h
  constructor
  · unfold RemoveCommand.execute
    rw [vecRemove_eq_some _ _ h]
  · unfold RemoveCommand.revert
    dsimp only
    rw [getContainer_setContainer_self _ _ _ hh, vecInsert_take_drop _ _ h]
    dsimp only
    rw [setContainer_setContainer, setContainer_getContainer_self _ _ hh]

/-- C1 witness: collection `[10,20,30]`, remove at index 1: execute yields
`[10,30]` with captured value `20`; revert restores `[10,20,30]`. -/
theorem remove_execute_then_revert_restores_witness :
    RemoveCommand.execute (⟨0, 1, none⟩ : RemoveCommand Nat) ⟨[[10, 20, 30]], 0, 0⟩
      = some (⟨0, 1, some 20⟩, ⟨[[10, 30]], 0, 0⟩) ∧
    RemoveCommand.revert (⟨0, 1, some 20⟩ : RemoveCommand Nat) ⟨[[10, 30]], 0, 0⟩
      = some (⟨0, 1, none⟩, ⟨[[10, 20, 30]], 0, 0⟩) :=
  remove_execute_then_revert_restores ⟨0, 1, none⟩ ⟨[[10, 20, 30]], 0, 0⟩ (by decide)

/-- C2: for an add command with a valid handle, `execute` appends the held
value as the new last element of the target collection, and the immediately
following `revert` returns exactly the original command (its `value` field
recaptured) and the original scene context; since revert reproduces the
pre-execute command and context on the nose, executing again after a revert
has the same effect as the first execute. -/
theorem add_execute_appends_and_revert_restores [Inhabited α] (c : AddCommand α)
    (ctx : SceneContext α) (hh : c.handle < ctx.containers.length) :
    getContainer (c.execute ctx).2 c.handle = getContainer ctx c.handle ++ [c.value] ∧
    (c.execute ctx).1.revert (c.execute ctx).2 = some (c, ctx) := by
  constructor
  · exact getContainer_setContainer_self _ _ _ hh
  · show AddCommand.revert { c with value := default }
      (setContainer ctx c.handle (getContainer ctx c.handle ++ [c.value])) = some (c, ctx)
    unfold AddCommand.revert
    rw [getContainer_setContainer_self _ _ _ hh, vecPop_concat]
    dsimp only
    rw [setContainer_setContainer, setContainer_getContainer_self _ _ hh]

/-- C2 witness: collection `[1]`, add value `5`: execute yields `[1, 5]`;
revert returns the original command and context. -/
theorem add_execute_appends_and_revert_restores_witness :
    getContainer ((AddCommand.execute (⟨0, 5⟩ : AddCommand Nat) ⟨[[1]], 0, 0⟩).2) 0
      = [1] ++ [5] ∧
    (AddCommand.execute (⟨0, 5⟩ : AddCommand Nat) ⟨[[1]], 0, 0⟩).1.revert
      (AddCommand.execute (⟨0, 5⟩ : AddCommand Nat) ⟨[[1]], 0, 0⟩).2
      = some (⟨0, 5⟩, ⟨[[1]], 0, 0⟩) :=
  add_execute_appends_and_revert_restores ⟨0, 5⟩ ⟨[[1]], 0, 0⟩ (by decide)

/-- C3 counterexample: an add command constructed with value `5` is
executed; the collection is then mutated out-of-band to `[7]`, whose last
element `7` differs from the original value `5`. The claim says revert must
then fail loudly; instead the code's revert succeeds (`some`, not `none`)
and silently pops the wrong element `7` into the command. -/
theorem add_revert_no_check_counterexample :
    AddCommand.revert ((AddCommand.execute (⟨0, 5⟩ : AddCommand Nat) ⟨[[]], 0, 0⟩).1)
      ⟨[[7]], 0, 0⟩ = some (⟨0, 7⟩, ⟨[[]], 0, 0⟩) ∧ (7 : Nat) ≠ 5 := by
  decide

/-- C3 amended: on revert, an add command pops whatever element is last in
the collection and stores it as its new value, with no check that it equals
the value the command was constructed with; if the collection was mutated
out-of-band so that the last element differs, revert silently pops that
(wrong) element instead of failing (it fails only on an empty collection). -/
theorem add_revert_pops_last_unchecked (c : AddCommand α) (ctx : SceneContext α)
    (l : List α) (v : α) (hl : getContainer ctx c.handle = l ++ [v]) :
    c.revert ctx = some ({ c with value := v }, setContainer ctx c.handle l) := by
  unfold AddCommand.revert
  rw [hl, vecPop_concat]

/-- C3 amended witness: a command holding value `5` reverts against a
collection whose last element is `7`: revert succeeds and captures `7`. -/
theorem add_revert_pops_last_unchecked_witness :
    AddCommand.revert (⟨0, 5⟩ : AddCommand Nat) ⟨[[7]], 0, 0⟩
      = some (⟨0, 7⟩, ⟨[[]], 0, 0⟩) :=
  add_revert_pops_last_unchecked ⟨0, 5⟩ ⟨[[7]], 0, 0⟩ [] 7 rfl

/-- C4: the remove command's optional `value` slot alternates with the
element's residence: every successful `execute` leaves the slot populated
(`isSome`) with exactly the removed element — the element at `index` of the
pre-execute collection — and every successful `revert` leaves it empty
(`none`); hence under strict execute/revert alternation starting from an
empty slot, the slot is populated exactly while the element is out of the
live collection. -/
theorem remove_value_slot_alternates (c ce d dr : RemoveCommand α)
    (ctx ctxe ctx₂ ctxr : SceneContext α)
    (he : c.execute ctx = some (ce, ctxe))
    (hr : d.revert ctx₂ = some (dr, ctxr)) :
    ce.value = (getContainer ctx c.handle)[c.index]? ∧
    ce.value.isSome = true ∧ dr.value = none := by
  have h : c.index < (getContainer ctx c.handle).length := by
    by_contra hcon
    unfold RemoveCommand.execute vecRemove at he
    rw [dif_neg hcon] at he
    cases he
  unfold RemoveCommand.execute at he
  rw [vecRemove_eq_some _ _ h] at he
  simp only [Option.some.injEq, Prod.mk.injEq] at he
  refine ⟨?_, ?_, ?_⟩
  · rw [← he.1, List.getElem?_eq_getElem h]
    rfl
  · rw [← he.1]
    rfl
  · unfold RemoveCommand.revert at hr
    cases hv : d.value with
    | none => rw [hv] at hr; cases hr
    | some v =>
      rw [hv] at hr
      dsimp only at hr
      cases hins : vecInsert (getContainer ctx₂ d.handle) d.index v with
      | none => rw [hins] at hr; cases hr
      | some l =>
        rw [hins] at hr
        simp only [Option.some.injEq, Prod.mk.injEq] at hr
        rw [← hr.1]

/-- C4 witness: executing a remove at index 0 on `[1]` populates the slot
with the removed element `1`; reverting a remove holding `5` empties the
slot. -/
theorem remove_value_slot_alternates_witness :
    (⟨0, 0, some 1⟩ : RemoveCommand Nat).value
      = (getContainer (⟨[[1]], 0, 0⟩ : SceneContext Nat) 0)[(0 : Nat)]? ∧
    (⟨0, 0, some 1⟩ : RemoveCommand Nat).value.isSome = true ∧
    (⟨0, 0, none⟩ : RemoveCommand Nat).value = none :=
  remove_value_slot_alternates (⟨0, 0, none⟩ : RemoveCommand Nat) ⟨0, 0, some 1⟩
    ⟨0, 0, some 5⟩ ⟨0, 0, none⟩ ⟨[[1]], 0, 0⟩ ⟨[[]], 0, 0⟩ ⟨[[]], 0, 0⟩ ⟨[[5]], 0, 0⟩
    (by decide) (by decide)

/-- C5: executing a remove command succeeds exactly when its `index` is in
range for the target collection (`index < len`); for every in-range index it
never aborts, and for every out-of-range index it aborts (`none`, the model
of the Rust panic) rather than silently recovering or no-opping. -/
theorem remove_execute_succeeds_iff_index_in_range (c : RemoveCommand α)
    (ctx : SceneContext α) :
    (c.execute ctx).isSome = true ↔ c.index < (getContainer ctx c.handle).length := by
  unfold RemoveCommand.execute vecRemove
  by_cases h : c.index < (getContainer ctx c.handle).length
  · rw [dif_pos h]
    simp [h]
  · rw [dif_neg h]
    simp [h]

/-- C6: after any successful revert of a remove command, the command's
`value` slot is empty, so calling revert again without an intervening
execute fails (`none`, the model of the Rust panic on taking from the empty
slot) against every context; it does not silently reinsert anything. -/
theorem remove_double_revert_fails (c c' : RemoveCommand α)
    (ctx ctx' ctx₂ : SceneContext α) (h : c.revert ctx = some (c', ctx')) :
    c'.value = none ∧ c'.revert ctx₂ = none := by
  have hv : c'.value = none := by
    unfold RemoveCommand.revert at h
    cases hcv : c.value with
    | none => rw [hcv] at h; cases h
    | some v =>
      rw [hcv] at h
      dsimp only at h
      cases hins : vecInsert (getContainer ctx c.handle) c.index v with
      | none => rw [hins] at h; cases h
      | some l =>
        rw [hins] at h
        simp only [Option.some.injEq, Prod.mk.injEq] at h
        rw [← h.1]
  refine ⟨hv, ?_⟩
  unfold RemoveCommand.revert
  rw [hv]

/-- C6 witness: a remove command holding `5` reverts successfully against
`[[1]]`; reverting the resulting command again fails. -/
theorem remove_double_revert_fails_witness :
    (⟨0, 0, none⟩ : RemoveCommand Nat).value = none ∧
    RemoveCommand.revert (⟨0, 0, none⟩ : RemoveCommand Nat) ⟨[[5, 1]], 0, 0⟩ = none :=
  remove_double_revert_fails ⟨0, 0, some 5⟩ ⟨0, 0, none⟩ ⟨[[1]], 0, 0⟩ ⟨[[5, 1]], 0, 0⟩
    ⟨[[5, 1]], 0, 0⟩ (by decide)

/-- C7: the rectangle property-change handler returns no command (`none`)
whenever the target node is not a rectangle, or the (field kind, field
name) pair matches none of the known rectangle fields (`TEXTURE`/`COLOR`
for object values, `BASE` for inspectable values, nothing for collection
payloads); being a pure function of its inputs it mutates nothing and
constructs no command in those cases, for every base-property handler. -/
theorem rectangle_handler_unmatched_returns_none
    (hb : Nat → Nat → Node → Option SceneCommand) (args : PropertyChanged)
    (handle : Nat) (node : Node)
    (h : node.is_rectangle = false ∨ matchesKnownRectangleField args = false) :
    handle_rectangle_property_changed hb args handle node = none := by
  unfold handle_rectangle_property_changed
  rcases h with h | h
  · rw [h]
    rfl
  · cases hn : node.is_rectangle with
    | false => rfl
    | true =>
      unfold matchesKnownRectangleField at h
      cases hv : args.value with
      | object v =>
        rw [hv] at h
        dsimp only at h
        split_ifs at h with h1 h2
        rw [if_pos (rfl : (true : Bool) = true)]
        dsimp only
        rw [if_neg h1, if_neg h2]
      | inspectable i =>
        rw [hv] at h
        dsimp only at h
        split_ifs at h with h1
        rw [if_pos (rfl : (true : Bool) = true)]
        dsimp only
        rw [if_neg h1]
      | collection p =>
        rw [if_pos (rfl : (true : Bool) = true)]

/-- C7 witness: a property-changed event on a non-rectangle node yields no
command; so does an object-valued event with an unknown field name on a
rectangle node. -/
theorem rectangle_handler_unmatched_returns_none_witness :
    handle_rectangle_property_changed (fun _ _ _ => none)
      ⟨"texture", FieldKind.object 0⟩ 0 ⟨false⟩ = none :=
  rectangle_handler_unmatched_returns_none (fun _ _ _ => none)
    ⟨"texture", FieldKind.object 0⟩ 0 ⟨false⟩ (Or.inl rfl)

/-- C8: each of the four operations (add execute/revert, remove
execute/revert) leaves the scene context unchanged outside the one
collection reached via the command's handle: the selection, the clipboard
and every other collection are exactly as before the call. Add execute
never aborts, so its locality is unconditional for every add command and
context; for the three fallible operations the locality holds at every
successful call, each conditioned only on its own outcome. -/
theorem commands_mutate_only_target_collection [Inhabited α]
    (a a' : AddCommand α) (r r₁ r₂ : RemoveCommand α)
    (ctx ctxA ctxR₁ ctxR₂ : SceneContext α) :
    agreesOutside ctx (a.execute ctx).2 a.handle ∧
    (a.revert ctx = some (a', ctxA) → agreesOutside ctx ctxA a.handle) ∧
    (r.execute ctx = some (r₁, ctxR₁) → agreesOutside ctx ctxR₁ r.handle) ∧
    (r.revert ctx = some (r₂, ctxR₂) → agreesOutside ctx ctxR₂ r.handle) := by
  refine ⟨agreesOutside_setContainer ctx a.handle _, ?_, ?_, ?_⟩
  · intro hA
    obtain ⟨l, rfl⟩ := addRevert_shape a ctx a' ctxA hA
    exact agreesOutside_setContainer ctx a.handle l
  · intro hR₁
    obtain ⟨l, rfl⟩ := removeExecute_shape r ctx r₁ ctxR₁ hR₁
    exact agreesOutside_setContainer ctx r.handle l
  · intro hR₂
    obtain ⟨l, rfl⟩ := removeRevert_shape r ctx r₂ ctxR₂ hR₂
    exact agreesOutside_setContainer ctx r.handle l

/-- C8 witness: on context `⟨[[1,2]], 0, 0⟩` all four operations agree with
the original context outside the single target collection; each implication
hypothesis is discharged at its concrete successful call. -/
theorem commands_mutate_only_target_collection_witness :
    agreesOutside (⟨[[1, 2]], 0, 0⟩ : SceneContext Nat)
      (AddCommand.execute (⟨0, 9⟩ : AddCommand Nat) ⟨[[1, 2]], 0, 0⟩).2 0 ∧
    agreesOutside (⟨[[1, 2]], 0, 0⟩ : SceneContext Nat) ⟨[[1]], 0, 0⟩ 0 ∧
    agreesOutside (⟨[[1, 2]], 0, 0⟩ : SceneContext Nat) ⟨[[2]], 0, 0⟩ 0 ∧
    agreesOutside (⟨[[1, 2]], 0, 0⟩ : SceneContext Nat) ⟨[[5, 1, 2]], 0, 0⟩ 0 :=
  ⟨(commands_mutate_only_target_collection (⟨0, 9⟩ : AddCommand Nat) ⟨0, 2⟩
      ⟨0, 0, some 5⟩ ⟨0, 0, some 1⟩ ⟨0, 0, none⟩ ⟨[[1, 2]], 0, 0⟩ ⟨[[1]], 0, 0⟩
      ⟨[[2]], 0, 0⟩ ⟨[[5, 1, 2]], 0, 0⟩).1,
    (commands_mutate_only_target_collection (⟨0, 9⟩ : AddCommand Nat) ⟨0, 2⟩
      ⟨0, 0, some 5⟩ ⟨0, 0, some 1⟩ ⟨0, 0, none⟩ ⟨[[1, 2]], 0, 0⟩ ⟨[[1]], 0, 0⟩
      ⟨[[2]], 0, 0⟩ ⟨[[5, 1, 2]], 0, 0⟩).2.1 (by decide),
    (commands_mutate_only_target_collection (⟨0, 9⟩ : AddCommand Nat) ⟨0, 2⟩
      ⟨0, 0, some 5⟩ ⟨0, 0, some 1⟩ ⟨0, 0, none⟩ ⟨[[1, 2]], 0, 0⟩ ⟨[[1]], 0, 0⟩
      ⟨[[2]], 0, 0⟩ ⟨[[5, 1, 2]], 0, 0⟩).2.2.1 (by decide),
    (commands_mutate_only_target_collection (⟨0, 9⟩ : AddCommand Nat) ⟨0, 2⟩
      ⟨0, 0, some 5⟩ ⟨0, 0, some 1⟩ ⟨0, 0, none⟩ ⟨[[1, 2]], 0, 0⟩ ⟨[[1]], 0, 0⟩
      ⟨[[2]], 0, 0⟩ ⟨[[5, 1, 2]], 0, 0⟩).2.2.2 (by decide)⟩

/-- C9: `name` on both generated command kinds is the stringified command
type name fixed at macro-expansion time: it is the same string on any two
scene contexts (and, taking the context immutably, mutates nothing). -/
theorem command_names_context_independent (tyName : String) (a : AddCommand α)
    (r : RemoveCommand α) (ctx₁ ctx₂ : SceneContext α) :
    AddCommand.name tyName a ctx₁ = AddCommand.name tyName a ctx₂ ∧
    AddCommand.name tyName a ctx₁ = tyName ∧
    RemoveCommand.name tyName r ctx₁ = RemoveCommand.name tyName r ctx₂ ∧
    RemoveCommand.name tyName r ctx₁ = tyName :=
  ⟨rfl, rfl, rfl, rfl⟩

/-- C10: after an add command's execute, the command's `value` field holds
the element type's default value (`mem::take` moved the original out), so a
second execute in a row, without an intervening revert, appends the default
value to the collection rather than the original value. -/
theorem add_double_execute_appends_default [Inhabited α] (c : AddCommand α)
    (ctx : SceneContext α) (hh : c.handle < ctx.containers.length) :
    (c.execute ctx).1.value = (default : α) ∧
    getContainer ((c.execute ctx).1.execute (c.execute ctx).2).2 c.handle
      = getContainer ctx c.handle ++ [c.value, default] := by
  have hh1 : c.handle < ((AddCommand.execute c ctx).2).containers.length := by
    show c.handle < (setContainer ctx c.handle _).containers.length
    rw [length_setContainer]
    exact hh
  refine ⟨rfl, ?_⟩
  show getContainer (setContainer (AddCommand.execute c ctx).2 c.handle
      (getContainer (AddCommand.execute c ctx).2 c.handle ++ [(default : α)])) c.handle = _
  rw [getContainer_setContainer_self _ _ _ hh1]
  show getContainer (setContainer ctx c.handle
      (getContainer ctx c.handle ++ [c.value])) c.handle ++ [(default : α)] = _
  rw [getContainer_setContainer_self _ _ _ hh]
  simp

/-- C10 witness: add command with value `5` on an empty collection: after
execute the command holds `0` (the default), and a second execute yields
`[5, 0]`, not `[5, 5]`. -/
theorem add_double_execute_appends_default_witness :
    (AddCommand.execute (⟨0, 5⟩ : AddCommand Nat) ⟨[[]], 0, 0⟩).1.value = (0 : Nat) ∧
    getContainer ((AddCommand.execute (⟨0, 5⟩ : AddCommand Nat) ⟨[[]], 0, 0⟩).1.execute
      (AddCommand.execute (⟨0, 5⟩ : AddCommand Nat) ⟨[[]], 0, 0⟩).2).2 0
      = [] ++ [5, 0] :=
  add_double_execute_appends_default ⟨0, 5⟩ ⟨[[]], 0, 0⟩ (by decide)

end Fyrox
